import Mathlib

/-!
Verification of the PIKE-RAG webapp core against its natural-language
specification.  The Python sources under `src/webapp/` are shallowly
embedded: texts are `List Char`, Python slices/strip are modelled
explicitly, the chunking `while` loop is given explicit fuel (it is not
structurally terminating for every parameter choice), stateful managers
are explicit state-passing functions, and fallible external services are
`Except`-valued parameters.
-/

namespace PikeRag

/-! ### Python string primitives used by the sources -/

/-- The whitespace characters removed by Python `str.strip()`. -/
def pyWhitespace : List Char := [' ', '\t', '\n', '\x0b', '\x0c', '\r']

/-- Python `s.strip()`: drop whitespace from both ends. -/
def pyStrip (s : List Char) : List Char :=
  ((s.dropWhile (pyWhitespace.contains ·)).reverse.dropWhile
    (pyWhitespace.contains ·)).reverse

/-- Python `text[start:stop]` for nonnegative indices. -/
def pySlice (text : List Char) (start stop : Nat) : List Char :=
  (text.take stop).drop start

/-! ### Chunker (`DocumentProcessor._split_text_into_chunks`,
`DocumentProcessorLite.chunk_text`) -/

/-- Sentence terminators of `document_processor.py` line 147: dot,
bang, question mark. -/
def dpTerms : List Char := ['.', '!', '?']

/-- Sentence terminators of `document_processor_lite.py` line 148: the
Python literal there is dot, bang, question mark, backslash, backslash,
n, which denotes the five characters dot, bang, question mark, a
backslash and the letter n (not a newline). -/
def liteTerms : List Char := ['.', '!', '?', '\\', 'n']

/-- The backward scan `for i in range(end, lo, -1): if text[i] in terms:
...` — from position `i` downwards, `k` positions in total, return the
first (hence topmost) position holding a terminator. -/
def scanBack (text : List Char) (terms : List Char) : Nat → Nat → Option Nat
  | _, 0 => none
  | i, k + 1 =>
    if terms.contains (text.getD i ' ') then some i
    else scanBack text terms (i - 1) k

/-- Lines 141-149 of `document_processor.py` (lines 142-150 of the lite
variant): `end = start + chunk_size`, and when `end < len(text)` scan
`range(end, max(start + chunk_size - window, start), -1)` for a
terminator, cutting just past it.  `window` is 200 in
`document_processor.py` and 100 in `document_processor_lite.py`. -/
def adjustEnd (window : Nat) (terms : List Char) (text : List Char)
    (chunk_size start : Nat) : Nat :=
  let e := start + chunk_size
  if e < text.length then
    let lo := max (start + chunk_size - window) start
    match scanBack text terms e (e - lo) with
    | some i => i + 1
    | none => e
  else e

/-- The `while start < text_length` loop of
`DocumentProcessor._split_text_into_chunks`, recording each window
`(start, end)`.  `fuel` bounds the number of iterations; `none` means
the loop did not finish within `fuel` iterations (for some parameters
the Python loop never terminates).  The next start is
`end - overlap if end < text_length else text_length` (line 155). -/
def dpWindows (text : List Char) (chunk_size overlap : Nat) :
    Nat → Nat → Option (List (Nat × Nat))
  | 0, start => if start < text.length then none else some []
  | fuel + 1, start =>
    if start < text.length then
      let e := adjustEnd 200 dpTerms text chunk_size start
      (dpWindows text chunk_size overlap fuel
          (if e < text.length then e - overlap else text.length)).map
        (fun ws => (start, e) :: ws)
    else some []

/-- Lines 151-153: `chunk = text[start:end].strip(); if chunk:
chunks.append(chunk)` — a window is emitted as a chunk unless it strips
to the empty string. -/
def emitChunk (text : List Char) (w : Nat × Nat) : Option (List Char) :=
  let c := pyStrip (pySlice text w.1 w.2)
  if c = [] then none else some c

/-- `DocumentProcessor._split_text_into_chunks` (lines 131-157): empty
text gives no chunks; otherwise run the window loop (fuel
`text.length + 1` iterations, enough whenever the loop terminates at
all with the advancing starts proved below) and emit the non-blank
stripped windows. -/
def split_text_into_chunks (text : List Char) (chunk_size overlap : Nat) :
    Option (List (List Char)) :=
  if text = [] then some []
  else (dpWindows text chunk_size overlap (text.length + 1) 0).map
    (List.filterMap (emitChunk text))

/-- The `while start < len(text)` loop of
`DocumentProcessorLite.chunk_text` (lines 141-158): scan window 100,
terminator set `liteTerms`, and the next start is unconditionally
`end - overlap` followed by `if start >= len(text): break`. -/
def liteWindows (text : List Char) (chunk_size overlap : Nat) :
    Nat → Nat → Option (List (Nat × Nat))
  | 0, start => if start < text.length then none else some []
  | fuel + 1, start =>
    if start < text.length then
      let e := adjustEnd 100 liteTerms text chunk_size start
      (liteWindows text chunk_size overlap fuel (e - overlap)).map
        (fun ws => (start, e) :: ws)
    else some []

/-- `DocumentProcessorLite.chunk_text` (lines 133-160): a text no longer
than `chunk_size` is returned whole (unstripped); otherwise the loop
runs as in `liteWindows`. -/
def chunk_text (text : List Char) (chunk_size overlap : Nat) :
    Option (List (List Char)) :=
  if text.length ≤ chunk_size then some [text]
  else (liteWindows text chunk_size overlap (text.length + 1) 0).map
    (List.filterMap (emitChunk text))

/-- Modelled from the spec: "search backward up to `min(200,
chunk_size)` characters for a sentence terminator (`.`, `!`, `?`,
newline) and cut there instead" (spec section 4.2).  Used only to
compare the code against the words of the spec. -/
def spec_adjust_end (text : List Char) (chunk_size start : Nat) : Nat :=
  adjustEnd (min 200 chunk_size) ['.', '!', '?', '\n'] text chunk_size start

/-! ### Concrete texts for the chunking scenarios -/

/-- A 2500-character text with no sentence terminator and no
whitespace. -/
def aText : List Char := List.replicate 2500 'a'

/-- A 2500-character text with sentence terminators placed at indices
801, 1403 and 2005, each the topmost terminator of the backward scan of
one window. -/
def tAdv : List Char :=
  (((List.replicate 2500 'a').set 801 '.').set 1403 '.').set 2005 '.'

/-! ### Conversation manager (`conversation_manager.py`)

`ConversationMessage` and `ConversationSession` are embedded without
their `metadata` dictionaries (no operation verified here reads or
writes them); timestamps produced by `datetime.now()` are injected as
explicit `now` arguments. -/

structure Message where
  role : String
  content : String
  timestamp : String
  deriving DecidableEq

structure Session where
  session_id : String
  created_at : String
  last_updated : String
  messages : List Message
  context_summary : String
  reasoning_strategy : String
  knowledge_base : String
  deriving DecidableEq

/-- Python `str.split()` with no argument: split on runs of whitespace,
producing no empty words. -/
def pySplitAux : List Char → List Char → List (List Char)
  | [], acc => if acc = [] then [] else [acc.reverse]
  | c :: cs, acc =>
    if pyWhitespace.contains c then
      if acc = [] then pySplitAux cs [] else acc.reverse :: pySplitAux cs []
    else pySplitAux cs (c :: acc)

def pySplit (s : List Char) : List (List Char) := pySplitAux s []

/-- Line 259: `[w for w in words if len(w) > 4 and w.isalpha()][:3]`
over `msg.content.lower().split()`. -/
def keyWords (content : String) : List (List Char) :=
  ((pySplit (content.data.map Char.toLower)).filter
    (fun w => decide (4 < w.length) && w.all Char.isAlpha)).take 3

/-- Lines 254-261: collect key words of the long user messages among
the last 10 messages. -/
def recentTopics (msgs : List Message) : List (List Char) :=
  (msgs.drop (msgs.length - 10)).foldl
    (fun acc m =>
      if m.role = "user" ∧ 20 < m.content.length then acc ++ keyWords m.content
      else acc) []

/-- Lines 263-268: the summary string.  Python builds the topic list
through `list(set(recent_topics))[:5]`, whose order the `set` leaves
unspecified; `List.eraseDups` (keep first occurrences) is the
deterministic stand-in, and no theorem below depends on that order. -/
def summary_text (msgs : List Message) : String :=
  if recentTopics msgs ≠ [] then
    "Recent discussion topics: " ++
      String.intercalate ", "
        ((((recentTopics msgs).eraseDups).take 5).map (fun w => String.mk w))
  else "Conversation with " ++ toString msgs.length ++ " messages"

/-- `ConversationManager._update_context_summary` (lines 248-268). -/
def update_context_summary (s : Session) : Session :=
  if s.messages.length ≤ 10 then s
  else { s with context_summary := summary_text s.messages }

/-- Association-list lookup standing in for Python dict/file lookup. -/
def alistGet {α : Type} (l : List (String × α)) (k : String) : Option α :=
  match l with
  | [] => none
  | (k9, v) :: t => if k9 = k then some v else alistGet t k

/-- Association-list update standing in for Python dict/file write. -/
def alistPut {α : Type} (l : List (String × α)) (k : String) (v : α) :
    List (String × α) :=
  match l with
  | [] => [(k, v)]
  | (k9, v9) :: t => if k9 = k then (k, v) :: t else (k9, v9) :: alistPut t k v

/-- The manager state: `_active_sessions` in-memory cache and the
per-session JSON files on disk. -/
structure MState where
  cache : List (String × Session)
  disk : List (String × Session)
  deriving DecidableEq

/-- `ConversationManager._save_session` (lines 204-211). -/
def save_session (st : MState) (s : Session) : MState :=
  { st with disk := alistPut st.disk s.session_id s }

/-- `ConversationManager.create_session` (lines 46-64), with the UUID
and timestamp injected. -/
def create_session (st : MState) (sid now strat kb : String) : MState :=
  let s : Session :=
    { session_id := sid, created_at := now, last_updated := now, messages := [],
      context_summary := "", reasoning_strategy := strat, knowledge_base := kb }
  save_session { st with cache := alistPut st.cache sid s } s

/-- `ConversationManager.get_session` (lines 66-76): cache first, then
disk (caching a disk hit), else `None`. -/
def get_session (st : MState) (sid : String) : Option Session × MState :=
  match alistGet st.cache sid with
  | some s => (some s, st)
  | none =>
    match alistGet st.disk sid with
    | some s => (some s, { st with cache := alistPut st.cache sid s })
    | none => (none, st)

/-- `ConversationManager.add_message` (lines 78-99): missing session
gives `False`; otherwise append the message, set `last_updated`,
summarize when more than 10 messages are held, and persist. -/
def add_message (st : MState) (sid role content now : String) : Bool × MState :=
  match get_session st sid with
  | (none, st1) => (false, st1)
  | (some s, st1) =>
    let s1 := { s with
      messages := s.messages ++ [{ role := role, content := content, timestamp := now }],
      last_updated := now }
    let s2 := if 10 < s1.messages.length then update_context_summary s1 else s1
    (true, save_session { st1 with cache := alistPut st1.cache sid s2 } s2)

/-- Lines 116-133 of `get_context_for_llm`, on a found session: the
optional summary entry followed by the last 10 messages as
`(role, content)` pairs. -/
def get_context_for_session (s : Session) (include_summary : Bool) :
    List (String × String) :=
  (if include_summary ∧ s.context_summary ≠ "" then
     [("system", "Previous conversation summary: " ++ s.context_summary)]
   else [])
  ++ (s.messages.drop (s.messages.length - 10)).map (fun m => (m.role, m.content))

/-- `ConversationManager.get_context_for_llm` (lines 110-133). -/
def get_context_for_llm (st : MState) (sid : String) (include_summary : Bool) :
    List (String × String) × MState :=
  match get_session st sid with
  | (none, st1) => ([], st1)
  | (some s, st1) => (get_context_for_session s include_summary, st1)

/-- A short message used in the summarization scenarios. -/
def shortMsg : Message := { role := "user", content := "hi", timestamp := "t" }

/-- A session already holding `n` short messages, cached and on disk
under id `sid`. -/
def sessionWith (n : Nat) : Session :=
  { session_id := "sid", created_at := "c", last_updated := "c",
    messages := List.replicate n shortMsg, context_summary := "",
    reasoning_strategy := "generation", knowledge_base := "documents" }

/-! ### Embedding gateway (`DocumentProcessorLite.get_embeddings`) -/

/-- Embedding vectors; the numeric entries are modelled as rationals. -/
abbrev Vec := List Rat

/-- The dummy 1536-dimensional embedding of lines 67 and 80. -/
def zeroVec : Vec := List.replicate 1536 0

/-- The external OpenAI embedding call: it may raise. -/
abbrev EmbedService := List Char → Except String Vec

/-- The `for text in texts` loop of lines 70-77: each text is truncated
to 8000 characters (`input=text[:8000]`) before the call, and the first
raising call aborts the whole loop. -/
def embedCalls (svc : EmbedService) : List (List Char) → Except String (List Vec)
  | [] => Except.ok []
  | t :: ts =>
    match svc (t.take 8000) with
    | Except.error e => Except.error e
    | Except.ok v =>
      match embedCalls svc ts with
      | Except.error e => Except.error e
      | Except.ok vs => Except.ok (v :: vs)

/-- `DocumentProcessorLite.get_embeddings` (lines 63-80): no client or a
raising service gives one `zeroVec` per text. -/
def get_embeddings (client : Option EmbedService) (texts : List (List Char)) :
    List Vec :=
  match client with
  | none => texts.map (fun _ => zeroVec)
  | some svc =>
    match embedCalls svc texts with
    | Except.ok es => es
    | Except.error _ => texts.map (fun _ => zeroVec)

/-! ### Knowledge-base search (`DocumentProcessor.search_knowledge_base`) -/

/-- The chroma store: named collections holding document texts. -/
abbrev KBStore := List (String × List String)

/-- Modelled from the spec: `get_collection` on a never-created
collection raises `NotFoundError` (spec sections 4.4 and 7); the chroma
client itself is an external library, not code of this repository. -/
def get_collection (store : KBStore) (name : String) :
    Except String (List String) :=
  match alistGet store name with
  | some docs => Except.ok docs
  | none => Except.error ("Collection " ++ name ++ " does not exist.")

/-- Modelled from the spec: the external vector query returns the top
`n` entries of the collection with their distances, and an empty
collection yields no matches (spec section 8); the ranking itself lives
in the external chroma library. -/
def chroma_query (docs : List String) (_q : String) (n : Nat) :
    List (String × Rat) :=
  (docs.take n).map (fun d => (d, 0))

structure SearchResult where
  content : String
  similarity_score : Rat
  deriving DecidableEq

/-- `DocumentProcessor.search_knowledge_base` (lines 206-231): the whole
body is wrapped in `try/except Exception`, so a raising
`get_collection` is swallowed and `[]` returned; a found collection is
queried and each hit formatted with `similarity_score = 1 - distance`.
The external query call is the `queryFn` parameter. -/
def search_knowledge_base
    (queryFn : List String → String → Nat → List (String × Rat))
    (store : KBStore) (query name : String) (n : Nat) : List SearchResult :=
  match get_collection store name with
  | Except.error _ => []
  | Except.ok docs =>
    (queryFn docs query n).map
      (fun p => { content := p.1, similarity_score := 1 - p.2 })

/-! ### Reasoning strategies (`reasoning_strategies.py`)

The completion service (`llm_client.generate_content_with_messages`) is
an `Except`-valued parameter; the pikerag protocol helpers
(`process_input`, `parse_output`) are code outside this repository and
appear as total function parameters. -/

abbrev ChatMsg := String × String

abbrev LlmClient := List ChatMsg → Except String String

structure StratResult where
  success : Bool
  strategy : String
  answer : String
  rationale : String
  error_msg : Option String
  raw_response : Option String
  reasoning_steps : List String
  deriving DecidableEq

/-- Lines 45-68 of `GenerationStrategy.process_question`: last 5 history
entries, a system message when any history exists, then the protocol
messages for the current question. -/
def generation_messages (processInput : String → List String → List ChatMsg)
    (question : String) (context : List String) (history : List ChatMsg) :
    List ChatMsg :=
  let msgs := history.drop (history.length - 5)
  let current := processInput question context
  if msgs ≠ [] then
    ("system",
      "Continue the conversation naturally, taking into account the previous context.")
      :: (msgs ++ current)
  else current

/-- `GenerationStrategy.process_question` (lines 40-92).  The
`except Exception` branch of lines 86-92 builds the failure dictionary;
dictionary keys absent in that branch are `none`/empty here. -/
def generation_process_question (processInput : String → List String → List ChatMsg)
    (parseOutput : String → Option String × Option String) (llm : LlmClient)
    (question : String) (context : List String) (history : List ChatMsg) :
    StratResult :=
  match llm (generation_messages processInput question context history) with
  | Except.error e =>
    { success := false, strategy := "generation",
      answer := "Error in generation strategy: " ++ e,
      rationale := "", error_msg := some e, raw_response := none,
      reasoning_steps := [] }
  | Except.ok response =>
    { success := true, strategy := "generation",
      answer := (parseOutput response).1.getD "No answer generated",
      rationale := (parseOutput response).2.getD "",
      error_msg := none, raw_response := some response,
      reasoning_steps :=
        ["Retrieved " ++ toString context.length ++ " relevant documents",
         "Considered last " ++ toString history.length ++ " conversation turns",
         "Generated direct answer using context"] }

/-- Python `' '.join(context) if context else 'No additional context
provided.` -/
def joinContext (context : List String) : String :=
  if context ≠ [] then String.intercalate " " context
  else "No additional context provided."

/-- The self-ask prompt of lines 122-134. -/
def self_ask_prompt (question : String) (context : List String) : String :=
  "Break this question down using a step-by-step reasoning approach:\n\nQuestion: "
    ++ question ++ "\n\nContext: " ++ joinContext context
    ++ "\n\nPlease follow this format:\n1. Are follow-up questions needed? [Yes/No]\n2. If yes, what sub-questions should we ask?\n3. Answer each sub-question\n4. Provide the final answer\n\nAnswer:"

/-- Lines 115-136: last 3 history entries plus the self-ask prompt as a
user message. -/
def self_ask_messages (question : String) (context : List String)
    (history : List ChatMsg) : List ChatMsg :=
  (history.drop (history.length - 3)) ++ [("user", self_ask_prompt question context)]

/-- `SelfAskStrategy.process_question` (lines 103-155). -/
def self_ask_process_question (llm : LlmClient) (question : String)
    (context : List String) (history : List ChatMsg) : StratResult :=
  match llm (self_ask_messages question context history) with
  | Except.error e =>
    { success := false, strategy := "self_ask",
      answer := "Error in self-ask strategy: " ++ e,
      rationale := "", error_msg := some e, raw_response := none,
      reasoning_steps := [] }
  | Except.ok response =>
    { success := true, strategy := "self_ask", answer := response,
      rationale := "Used self-ask reasoning to break down and answer the question step by step",
      error_msg := none, raw_response := some response,
      reasoning_steps :=
        ["Analyzing question complexity for self-ask reasoning",
         "Breaking down question into sub-questions",
         "Answering each sub-question systematically"] }

/-- The atomic-decomposition prompt of lines 181-193. -/
def atomic_prompt (question : String) (context : List String) : String :=
  "Analyze this question using atomic decomposition - break it down into fundamental facts:\n\nQuestion: "
    ++ question ++ "\n\nContext: " ++ joinContext context
    ++ "\n\nPlease follow this approach:\n1. Identify the atomic facts (smallest units of information) needed to answer this question\n2. For each atomic fact, determine if we can answer it from the context or need additional information\n3. Build up the answer systematically from these atomic components\n4. Provide a comprehensive final answer\n\nAnalysis:"

/-- Lines 174-195: last 3 history entries plus the atomic prompt as a
user message. -/
def atomic_messages (question : String) (context : List String)
    (history : List ChatMsg) : List ChatMsg :=
  (history.drop (history.length - 3)) ++ [("user", atomic_prompt question context)]

/-- `AtomicDecompositionStrategy.process_question` (lines 166-214). -/
def atomic_process_question (llm : LlmClient) (question : String)
    (context : List String) (history : List ChatMsg) : StratResult :=
  match llm (atomic_messages question context history) with
  | Except.error e =>
    { success := false, strategy := "atomic_decomposition",
      answer := "Error in atomic decomposition strategy: " ++ e,
      rationale := "", error_msg := some e, raw_response := none,
      reasoning_steps := [] }
  | Except.ok response =>
    { success := true, strategy := "atomic_decomposition", answer := response,
      rationale := "Used atomic decomposition to systematically analyze and answer the question",
      error_msg := none, raw_response := some response,
      reasoning_steps :=
        ["Decomposing question into atomic facts",
         "Analyzing each atomic component against available context",
         "Synthesizing atomic facts into comprehensive answer"] }

/-- The registry keys of `ReasoningStrategyManager.__init__` (lines
219-224), in insertion order, as reported by `list_strategies`. -/
def strategy_names : List String := ["generation", "self_ask", "atomic_decomposition"]

/-- The value returned by `process_with_strategy`: either the
unknown-strategy dictionary of lines 244-249 or a strategy result. -/
inductive DispatchResult where
  | unknown (error_msg : String) (available_strategies : List String)
  | answered (r : StratResult)
  deriving DecidableEq

def DispatchResult.success : DispatchResult → Bool
  | DispatchResult.unknown _ _ => false
  | DispatchResult.answered r => r.success

def DispatchResult.available : DispatchResult → Option (List String)
  | DispatchResult.unknown _ a => some a
  | DispatchResult.answered _ => none

/-- `ReasoningStrategyManager.process_with_strategy` (lines 240-251):
the dictionary lookup over the three registered strategies. -/
def process_with_strategy (processInput : String → List String → List ChatMsg)
    (parseOutput : String → Option String × Option String) (llm : LlmClient)
    (strategy_name question : String) (context : List String)
    (history : List ChatMsg) : DispatchResult :=
  if strategy_name = "generation" then
    DispatchResult.answered
      (generation_process_question processInput parseOutput llm question context history)
  else if strategy_name = "self_ask" then
    DispatchResult.answered (self_ask_process_question llm question context history)
  else if strategy_name = "atomic_decomposition" then
    DispatchResult.answered (atomic_process_question llm question context history)
  else
    DispatchResult.unknown ("Unknown reasoning strategy: " ++ strategy_name)
      strategy_names

/-! ## Lemmas about the backward sentence scan -/

lemma scanBack_eq_none (text terms : List Char) :
    ∀ k i, (∀ j, j ≤ i → i < j + k → terms.contains (text.getD j ' ') = false) →
      scanBack text terms i k = none := by
  intro k
  induction k with
  | zero => intro i _; rfl
  | succ n ih =>
    intro i h
    have hi : terms.contains (text.getD i ' ') = false := h i le_rfl (by omega)
    simp only [scanBack, hi, Bool.false_eq_true, if_false]
    exact ih (i - 1) (fun j hj1 hj2 => h j (by omega) (by omega))

lemma scanBack_eq_some (text terms : List Char) :
    ∀ k i j, j ≤ i → i < j + k → terms.contains (text.getD j ' ') = true →
      (∀ i9, i9 ≤ i → j < i9 → terms.contains (text.getD i9 ' ') = false) →
      scanBack text terms i k = some j := by
  intro k
  induction k with
  | zero => intro i j h1 h2 _ _; exact absurd h2 (by omega)
  | succ n ih =>
    intro i j h1 h2 hc htop
    by_cases hij : j = i
    · subst hij
      simp only [scanBack]
      rw [hc]
      simp
    · have hi : terms.contains (text.getD i ' ') = false := htop i le_rfl (by omega)
      simp only [scanBack, hi, Bool.false_eq_true, if_false]
      exact ih (i - 1) j (by omega) (by omega) hc
        (fun i9 h19 h29 => htop i9 (by omega) h29)

lemma scanBack_some_bounds (text terms : List Char) :
    ∀ k i j, scanBack text terms i k = some j → j ≤ i ∧ i < j + k := by
  intro k
  induction k with
  | zero => intro i j h; exact absurd h (by simp [scanBack])
  | succ n ih =>
    intro i j h
    simp only [scanBack] at h
    split at h
    · injection h with h1
      omega
    · have := ih (i - 1) j h
      omega

/-! ## Lemmas about the window-boundary adjustment -/

lemma adjustEnd_eq_of_lt (window : Nat) (terms text : List Char) (cs start : Nat)
    (h : start + cs < text.length) :
    adjustEnd window terms text cs start =
      match scanBack text terms (start + cs)
          ((start + cs) - max (start + cs - window) start) with
      | some i => i + 1
      | none => start + cs := by
  simp [adjustEnd, h]

lemma adjustEnd_of_ge (window : Nat) (terms text : List Char) (cs start : Nat)
    (h : ¬ start + cs < text.length) :
    adjustEnd window terms text cs start = start + cs := by
  simp [adjustEnd, h]

lemma adjustEnd_of_no_term (window : Nat) (terms text : List Char) (cs start : Nat)
    (hlen : start + cs < text.length)
    (h : ∀ j, j ≤ start + cs → max (start + cs - window) start < j →
      terms.contains (text.getD j ' ') = false) :
    adjustEnd window terms text cs start = start + cs := by
  have hlo : max (start + cs - window) start ≤ start + cs :=
    max_le (by omega) (by omega)
  rw [adjustEnd_eq_of_lt window terms text cs start hlen,
    scanBack_eq_none text terms _ _ (fun j hj1 hj2 => h j hj1 (by omega))]

lemma adjustEnd_of_term (window : Nat) (terms text : List Char) (cs start j : Nat)
    (hlen : start + cs < text.length)
    (hj1 : j ≤ start + cs)
    (hj2 : max (start + cs - window) start < j)
    (hc : terms.contains (text.getD j ' ') = true)
    (htop : ∀ i, i ≤ start + cs → j < i → terms.contains (text.getD i ' ') = false) :
    adjustEnd window terms text cs start = j + 1 := by
  have hlo : max (start + cs - window) start ≤ start + cs :=
    max_le (by omega) (by omega)
  rw [adjustEnd_eq_of_lt window terms text cs start hlen,
    scanBack_eq_some text terms _ _ j hj1 (by omega) hc htop]

lemma le_adjustEnd (terms text : List Char) (cs ov start : Nat)
    (hov : ov + 199 ≤ cs) :
    start + ov + 1 ≤ adjustEnd 200 terms text cs start := by
  by_cases h : start + cs < text.length
  · rw [adjustEnd_eq_of_lt 200 terms text cs start h]
    cases hscan : scanBack text terms (start + cs)
        ((start + cs) - max (start + cs - 200) start) with
    | none =>
      show start + ov + 1 ≤ start + cs
      omega
    | some j =>
      show start + ov + 1 ≤ j + 1
      have hb := scanBack_some_bounds text terms _ _ _ hscan
      have h1 : start ≤ max (start + cs - 200) start := le_max_right _ _
      have h2 : start + cs - 200 ≤ max (start + cs - 200) start := le_max_left _ _
      have h3 : max (start + cs - 200) start ≤ start + cs := max_le (by omega) (by omega)
      omega
  · rw [adjustEnd_of_ge 200 terms text cs start h]; omega

/-! ## Lemmas about the chunking loop -/

lemma dpWindows_stop (text : List Char) (cs ov fuel start : Nat)
    (h : text.length ≤ start) :
    dpWindows text cs ov fuel start = some [] := by
  cases fuel <;> simp [dpWindows, Nat.not_lt.mpr h]

lemma dpWindows_succ (text : List Char) (cs ov fuel start : Nat)
    (h : start < text.length) :
    dpWindows text cs ov (fuel + 1) start =
      (dpWindows text cs ov fuel
        (if adjustEnd 200 dpTerms text cs start < text.length
         then adjustEnd 200 dpTerms text cs start - ov else text.length)).map
        (fun ws => (start, adjustEnd 200 dpTerms text cs start) :: ws) := by
  simp [dpWindows, h]

lemma dpWindows_head (text : List Char) (cs ov : Nat) :
    ∀ fuel start w l, dpWindows text cs ov fuel start = some (w :: l) → w.1 = start := by
  intro fuel start w l h
  cases fuel with
  | zero => by_cases hs : start < text.length <;> simp [dpWindows, hs] at h
  | succ n =>
    by_cases hs : start < text.length
    · rw [dpWindows_succ text cs ov n start hs, Option.map_eq_some'] at h
      obtain ⟨ws, _, heq⟩ := h
      have : w = (start, adjustEnd 200 dpTerms text cs start) := by
        injection heq.symm with h1 _
      rw [this]
    · simp [dpWindows, hs] at h

lemma dpWindows_chain (text : List Char) (cs ov : Nat) :
    ∀ fuel start ws, dpWindows text cs ov fuel start = some ws →
      List.Chain' (fun w w9 : Nat × Nat => w9.1 = w.2 - ov) ws := by
  intro fuel
  induction fuel with
  | zero =>
    intro start ws h
    by_cases hs : start < text.length
    · simp [dpWindows, hs] at h
    · simp only [dpWindows, if_neg hs, Option.some.injEq] at h
      subst h
      exact List.chain'_nil
  | succ n ih =>
    intro start ws h
    by_cases hs : start < text.length
    · rw [dpWindows_succ text cs ov n start hs, Option.map_eq_some'] at h
      obtain ⟨ws9, hws, heq⟩ := h
      subst heq
      have hch := ih _ _ hws
      cases ws9 with
      | nil => simp
      | cons w2 rest =>
        rw [List.chain'_cons]
        refine ⟨?_, hch⟩
        have hw2 := dpWindows_head text cs ov n _ w2 rest hws
        by_cases he : adjustEnd 200 dpTerms text cs start < text.length
        · rw [hw2, if_pos he]
        · rw [if_neg he] at hws
          rw [dpWindows_stop text cs ov n text.length le_rfl] at hws
          simp at hws
    · simp only [dpWindows, if_neg hs, Option.some.injEq] at h
      subst h
      exact List.chain'_nil

lemma dpWindows_isSome (text : List Char) (cs ov : Nat) (hov : ov + 199 ≤ cs) :
    ∀ fuel start, text.length ≤ start + fuel → (dpWindows text cs ov fuel start).isSome := by
  intro fuel
  induction fuel with
  | zero =>
    intro start h
    rw [dpWindows_stop text cs ov 0 start (by omega)]
    rfl
  | succ n ih =>
    intro start h
    by_cases hs : start < text.length
    · rw [dpWindows_succ text cs ov n start hs]
      have hnext : (dpWindows text cs ov n
          (if adjustEnd 200 dpTerms text cs start < text.length
           then adjustEnd 200 dpTerms text cs start - ov else text.length)).isSome := by
        apply ih
        by_cases he : adjustEnd 200 dpTerms text cs start < text.length
        · rw [if_pos he]
          have := le_adjustEnd dpTerms text cs ov start hov
          omega
        · rw [if_neg he]; omega
      obtain ⟨ws, hws⟩ := Option.isSome_iff_exists.mp hnext
      rw [hws]
      rfl
    · rw [dpWindows_stop text cs ov _ start (by omega)]
      rfl

/-! ## Concrete chunking computations -/

lemma aText_length : aText.length = 2500 := by
  rw [aText, List.length_replicate]

lemma tAdv_length : tAdv.length = 2500 := by
  rw [tAdv, List.length_set, List.length_set, List.length_set, List.length_replicate]

lemma aText_getD (j : Nat) (h : j < 2500) : aText.getD j ' ' = 'a' := by
  rw [aText, List.getD_eq_getElem?_getD, List.getElem?_replicate, if_pos h]
  rfl

lemma tAdv_getD_801 : tAdv.getD 801 ' ' = '.' := by
  rw [tAdv, List.getD_eq_getElem?_getD,
    List.getElem?_set_ne (by omega), List.getElem?_set_ne (by omega),
    List.getElem?_set_self (by rw [List.length_replicate]; omega)]
  rfl

lemma tAdv_getD_1403 : tAdv.getD 1403 ' ' = '.' := by
  rw [tAdv, List.getD_eq_getElem?_getD,
    List.getElem?_set_ne (by omega),
    List.getElem?_set_self (by rw [List.length_set, List.length_replicate]; omega)]
  rfl

lemma tAdv_getD_2005 : tAdv.getD 2005 ' ' = '.' := by
  rw [tAdv, List.getD_eq_getElem?_getD,
    List.getElem?_set_self
      (by rw [List.length_set, List.length_set, List.length_replicate]; omega)]
  rfl

lemma tAdv_getD_a (j : Nat) (h : j < 2500) (h1 : j ≠ 801) (h2 : j ≠ 1403)
    (h3 : j ≠ 2005) : tAdv.getD j ' ' = 'a' := by
  rw [tAdv, List.getD_eq_getElem?_getD,
    List.getElem?_set_ne (Ne.symm h3), List.getElem?_set_ne (Ne.symm h2),
    List.getElem?_set_ne (Ne.symm h1), List.getElem?_replicate, if_pos h]
  rfl

lemma aText_adjust (start : Nat) (h : start + 1000 < 2500) :
    adjustEnd 200 dpTerms aText 1000 start = start + 1000 := by
  apply adjustEnd_of_no_term
  · rw [aText_length]; exact h
  · intro j hj1 _
    rw [aText_getD j (by omega)]
    decide

lemma tAdv_adjust_0 : adjustEnd 200 dpTerms tAdv 1000 0 = 802 := by
  have h := adjustEnd_of_term 200 dpTerms tAdv 1000 0 801
    (by rw [tAdv_length]; omega) (by omega) (by decide)
    (by rw [tAdv_getD_801]; decide)
    (fun i hi1 hi2 => by
      rw [tAdv_getD_a i (by omega) (by omega) (by omega) (by omega)]
      decide)
  exact h

lemma tAdv_adjust_602 : adjustEnd 200 dpTerms tAdv 1000 602 = 1404 := by
  have h := adjustEnd_of_term 200 dpTerms tAdv 1000 602 1403
    (by rw [tAdv_length]; omega) (by omega) (by decide)
    (by rw [tAdv_getD_1403]; decide)
    (fun i hi1 hi2 => by
      rw [tAdv_getD_a i (by omega) (by omega) (by omega) (by omega)]
      decide)
  exact h

lemma tAdv_adjust_1204 : adjustEnd 200 dpTerms tAdv 1000 1204 = 2006 := by
  have h := adjustEnd_of_term 200 dpTerms tAdv 1000 1204 2005
    (by rw [tAdv_length]; omega) (by omega) (by decide)
    (by rw [tAdv_getD_2005]; decide)
    (fun i hi1 hi2 => by
      rw [tAdv_getD_a i (by omega) (by omega) (by omega) (by omega)]
      decide)
  exact h

lemma aText_windows :
    dpWindows aText 1000 200 2501 0 = some [(0, 1000), (800, 1800), (1600, 2600)] := by
  have h3 : dpWindows aText 1000 200 2498 2500 = some [] :=
    dpWindows_stop aText 1000 200 2498 2500 (by rw [aText_length])
  have h2 : dpWindows aText 1000 200 2499 1600 = some [(1600, 2600)] := by
    rw [show (2499 : Nat) = 2498 + 1 from rfl,
      dpWindows_succ aText 1000 200 2498 1600 (by rw [aText_length]; omega),
      adjustEnd_of_ge 200 dpTerms aText 1000 1600 (by rw [aText_length]; omega),
      aText_length, show (1600 + 1000 : Nat) = 2600 from rfl,
      if_neg (by omega : ¬ (2600 : Nat) < 2500), h3]
    rfl
  have h1 : dpWindows aText 1000 200 2500 800 = some [(800, 1800), (1600, 2600)] := by
    rw [show (2500 : Nat) = 2499 + 1 from rfl,
      dpWindows_succ aText 1000 200 2499 800 (by rw [aText_length]; omega),
      aText_adjust 800 (by omega), aText_length,
      show (800 + 1000 : Nat) = 1800 from rfl,
      if_pos (by omega : (1800 : Nat) < 2500),
      show (1800 - 200 : Nat) = 1600 from rfl, h2]
    rfl
  rw [show (2501 : Nat) = 2500 + 1 from rfl,
    dpWindows_succ aText 1000 200 2500 0 (by rw [aText_length]; omega),
    aText_adjust 0 (by omega), aText_length,
    show (0 + 1000 : Nat) = 1000 from rfl,
    if_pos (by omega : (1000 : Nat) < 2500),
    show (1000 - 200 : Nat) = 800 from rfl, h1]
  rfl

lemma tAdv_windows :
    dpWindows tAdv 1000 200 2501 0
      = some [(0, 802), (602, 1404), (1204, 2006), (1806, 2806)] := by
  have h4 : dpWindows tAdv 1000 200 2497 2500 = some [] :=
    dpWindows_stop tAdv 1000 200 2497 2500 (by rw [tAdv_length])
  have h3 : dpWindows tAdv 1000 200 2498 1806 = some [(1806, 2806)] := by
    rw [show (2498 : Nat) = 2497 + 1 from rfl,
      dpWindows_succ tAdv 1000 200 2497 1806 (by rw [tAdv_length]; omega),
      adjustEnd_of_ge 200 dpTerms tAdv 1000 1806 (by rw [tAdv_length]; omega),
      tAdv_length, show (1806 + 1000 : Nat) = 2806 from rfl,
      if_neg (by omega : ¬ (2806 : Nat) < 2500), h4]
    rfl
  have h2 : dpWindows tAdv 1000 200 2499 1204 = some [(1204, 2006), (1806, 2806)] := by
    rw [show (2499 : Nat) = 2498 + 1 from rfl,
      dpWindows_succ tAdv 1000 200 2498 1204 (by rw [tAdv_length]; omega),
      tAdv_adjust_1204, tAdv_length,
      if_pos (by omega : (2006 : Nat) < 2500),
      show (2006 - 200 : Nat) = 1806 from rfl, h3]
    rfl
  have h1 : dpWindows tAdv 1000 200 2500 602
      = some [(602, 1404), (1204, 2006), (1806, 2806)] := by
    rw [show (2500 : Nat) = 2499 + 1 from rfl,
      dpWindows_succ tAdv 1000 200 2499 602 (by rw [tAdv_length]; omega),
      tAdv_adjust_602, tAdv_length,
      if_pos (by omega : (1404 : Nat) < 2500),
      show (1404 - 200 : Nat) = 1204 from rfl, h2]
    rfl
  rw [show (2501 : Nat) = 2500 + 1 from rfl,
    dpWindows_succ tAdv 1000 200 2500 0 (by rw [tAdv_length]; omega),
    tAdv_adjust_0, tAdv_length,
    if_pos (by omega : (802 : Nat) < 2500),
    show (802 - 200 : Nat) = 602 from rfl, h1]
  rfl

/-! ## Stripping and chunk emission on the concrete texts -/

lemma dropWhile_of_head_false {p : Char → Bool} :
    ∀ l : List Char, (∀ c ∈ l, p c = false) → l.dropWhile p = l := by
  intro l h
  cases l with
  | nil => rfl
  | cons a t => simp [List.dropWhile, h a (by simp)]

lemma pyStrip_keep (l : List Char) (h : ∀ c ∈ l, pyWhitespace.contains c = false) :
    pyStrip l = l := by
  unfold pyStrip
  rw [dropWhile_of_head_false l h,
    dropWhile_of_head_false l.reverse (fun c hc => h c (List.mem_reverse.mp hc)),
    List.reverse_reverse]

lemma pyStrip_replicate_a (n : Nat) :
    pyStrip (List.replicate n 'a') = List.replicate n 'a' :=
  pyStrip_keep _ (fun c hc => by rw [List.eq_of_mem_replicate hc]; decide)

lemma emit_aText (s e n : Nat) (he : (aText.take e).drop s = List.replicate n 'a')
    (hn : n ≠ 0) :
    emitChunk aText (s, e) = some (List.replicate n 'a') := by
  simp only [emitChunk, pySlice]
  rw [he, pyStrip_replicate_a]
  rw [if_neg (fun hc => hn (by simpa using congrArg List.length hc))]

lemma filterMap_cons_of_some {α β : Type} (f : α → Option β) (a : α) (l : List α)
    (b : β) (h : f a = some b) :
    List.filterMap f (a :: l) = b :: List.filterMap f l := by
  rw [List.filterMap_cons, h]

lemma aText_chunks :
    split_text_into_chunks aText 1000 200
      = some [List.replicate 1000 'a', List.replicate 1000 'a',
          List.replicate 900 'a'] := by
  have e1 : emitChunk aText (0, 1000) = some (List.replicate 1000 'a') :=
    emit_aText 0 1000 1000
      (by rw [aText, List.take_replicate, List.drop_replicate]; congr 1)
      (by omega)
  have e2 : emitChunk aText (800, 1800) = some (List.replicate 1000 'a') :=
    emit_aText 800 1800 1000
      (by rw [aText, List.take_replicate, List.drop_replicate]; congr 1)
      (by omega)
  have e3 : emitChunk aText (1600, 2600) = some (List.replicate 900 'a') :=
    emit_aText 1600 2600 900
      (by rw [aText, List.take_replicate, List.drop_replicate]; congr 1)
      (by omega)
  unfold split_text_into_chunks
  rw [if_neg (fun hc => by
    have hl := congrArg List.length hc
    rw [aText_length] at hl
    simp at hl)]
  rw [aText_length, show (2500 : Nat) + 1 = 2501 from rfl, aText_windows,
    Option.map_some', filterMap_cons_of_some _ _ _ _ e1,
    filterMap_cons_of_some _ _ _ _ e2, filterMap_cons_of_some _ _ _ _ e3,
    List.filterMap_nil]

lemma tAdv_emit_isSome (s e : Nat) (h1 : s < 2500) (h2 : s < e) :
    (emitChunk tAdv (s, e)).isSome = true := by
  have hmem : ∀ c ∈ (tAdv.take e).drop s, pyWhitespace.contains c = false := by
    intro c hc
    have hm : c ∈ tAdv := List.mem_of_mem_take (List.mem_of_mem_drop hc)
    unfold tAdv at hm
    rcases List.mem_or_eq_of_mem_set hm with hm | rfl
    · rcases List.mem_or_eq_of_mem_set hm with hm | rfl
      · rcases List.mem_or_eq_of_mem_set hm with hm | rfl
        · rw [List.eq_of_mem_replicate hm]; decide
        · decide
      · decide
    · decide
  have hlen : ((tAdv.take e).drop s).length ≠ 0 := by
    rw [List.length_drop, List.length_take, tAdv_length]
    omega
  simp only [emitChunk, pySlice]
  rw [pyStrip_keep _ hmem, if_neg (fun hc => hlen (by rw [hc]; rfl))]
  rfl

lemma tAdv_chunk_count :
    (split_text_into_chunks tAdv 1000 200).map List.length = some 4 := by
  obtain ⟨c1, hc1⟩ := Option.isSome_iff_exists.mp (tAdv_emit_isSome 0 802 (by omega) (by omega))
  obtain ⟨c2, hc2⟩ := Option.isSome_iff_exists.mp (tAdv_emit_isSome 602 1404 (by omega) (by omega))
  obtain ⟨c3, hc3⟩ := Option.isSome_iff_exists.mp (tAdv_emit_isSome 1204 2006 (by omega) (by omega))
  obtain ⟨c4, hc4⟩ := Option.isSome_iff_exists.mp (tAdv_emit_isSome 1806 2806 (by omega) (by omega))
  unfold split_text_into_chunks
  rw [if_neg (fun hc => by
    have hl := congrArg List.length hc
    rw [tAdv_length] at hl
    simp at hl)]
  rw [tAdv_length, show (2500 : Nat) + 1 = 2501 from rfl, tAdv_windows,
    Option.map_some', filterMap_cons_of_some _ _ _ _ hc1,
    filterMap_cons_of_some _ _ _ _ hc2, filterMap_cons_of_some _ _ _ _ hc3,
    filterMap_cons_of_some _ _ _ _ hc4, List.filterMap_nil, Option.map_some']
  rfl

/-! ## Claim C1 -/

/-- C1: the claim is false as stated.  `tAdv` is a 2500-character text,
yet `_split_text_into_chunks` with `chunk_size=1000, overlap=200` emits
4 chunks, not 3: each sentence terminator pulls the window end back by
198 characters, so the windows are `(0,802), (602,1404), (1204,2006),
(1806,2806)`. -/
theorem C1_counterexample :
    tAdv.length = 2500
    ∧ (split_text_into_chunks tAdv 1000 200).map List.length = some 4 :=
  ⟨tAdv_length, tAdv_chunk_count⟩

/-- C1 (amended): every window after the first starts at the previous
end of the previous window minus `overlap`, so adjacent windows share `overlap`
character positions (chunks are the whitespace-stripped windows, and a
window that strips to nothing is skipped); a 2500-character text with no
sentence terminator and no whitespace, split with `chunk_size=1000,
overlap=200`, yields exactly 3 chunks — the first being the
first 1000 characters of the text, hence starting at offset 0 — each sharing
exactly 200 (hence at least 190) characters with the next; texts with
adversarial terminators can yield more than 3 chunks. -/
theorem C1_amended :
    (∀ (text : List Char) (cs ov fuel start : Nat) (ws : List (Nat × Nat)),
      dpWindows text cs ov fuel start = some ws →
      List.Chain' (fun w w9 => w9.1 = w.2 - ov) ws)
    ∧ split_text_into_chunks aText 1000 200
        = some [List.replicate 1000 'a', List.replicate 1000 'a',
            List.replicate 900 'a']
    ∧ dpWindows aText 1000 200 2501 0 = some [(0, 1000), (800, 1800), (1600, 2600)]
    ∧ List.replicate 1000 'a' = aText.take 1000
    ∧ 190 ≤ 200
    ∧ (List.replicate 1000 'a').drop 800 = (List.replicate 1000 'a').take 200
    ∧ (List.replicate 1000 'a').drop 800 = (List.replicate 900 'a').take 200 := by
  refine ⟨fun text cs ov fuel start ws h => dpWindows_chain text cs ov fuel start ws h,
    aText_chunks, aText_windows, ?_, by omega, ?_, ?_⟩
  · rw [aText, List.take_replicate]
    congr 1
  · rw [List.drop_replicate, List.take_replicate]
    congr 1
  · rw [List.drop_replicate, List.take_replicate]
    congr 1

theorem C1_amended_witness :
    List.Chain' (fun w w9 : Nat × Nat => w9.1 = w.2 - 2) [(0, 5)] :=
  C1_amended.1 (List.replicate 3 'b') 5 2 4 0 [(0, 5)] (by decide)

/-! ## Claim C2 -/

/-- C2: the claim is false as stated.  With `chunk_size=10, overlap=5`
(so `overlap < chunk_size`) on the 12-character text `aaaa.aaaaaaa`,
the terminator at index 4 makes the adjusted end 5, so the next start
is `5 - 5 = 0`: the start does not increase and the loop never
terminates — after 100 iterations (far more than
`text length / chunk_size = 1`) it is still running, and
`_split_text_into_chunks` runs out of its `length + 1` fuel. -/
lemma stuck_loop : ∀ fuel, dpWindows ("aaaa.aaaaaaa").data 10 5 fuel 0 = none := by
  intro fuel
  induction fuel with
  | zero => decide
  | succ n ih =>
    rw [dpWindows_succ ("aaaa.aaaaaaa").data 10 5 n 0 (by decide),
      show adjustEnd 200 dpTerms ("aaaa.aaaaaaa").data 10 0 = 5 from by decide,
      if_pos (by decide : (5 : Nat) < ("aaaa.aaaaaaa").data.length),
      show (5 - 5 : Nat) = 0 from rfl, ih]
    rfl

theorem C2_counterexample :
    (5 < 10)
    ∧ dpWindows ("aaaa.aaaaaaa").data 10 5 100 0 = none
    ∧ split_text_into_chunks ("aaaa.aaaaaaa").data 10 5 = none
    ∧ adjustEnd 200 dpTerms ("aaaa.aaaaaaa").data 10 0 < ("aaaa.aaaaaaa").data.length
    ∧ adjustEnd 200 dpTerms ("aaaa.aaaaaaa").data 10 0 - 5 = 0 := by
  refine ⟨by omega, stuck_loop 100, ?_, by decide, by decide⟩
  rw [split_text_into_chunks, if_neg (by decide), stuck_loop]
  rfl

/-- C2 (amended): the loop terminates whenever
`overlap + 199 ≤ chunk_size` — which holds at the only parameters
the source uses, the defaults `chunk_size=1000, overlap=200` — because every
iteration then advances the start by at least
`chunk_size - 198 - overlap ≥ 1`; for overlaps within 198 of
`chunk_size` a crafted text can keep the start from increasing and the
loop never terminates. -/
theorem C2_amended (text : List Char) (cs ov : Nat) (hov : ov + 199 ≤ cs) :
    (∀ fuel start, text.length ≤ start + fuel →
      (dpWindows text cs ov fuel start).isSome)
    ∧ (split_text_into_chunks text cs ov).isSome := by
  refine ⟨dpWindows_isSome text cs ov hov, ?_⟩
  unfold split_text_into_chunks
  by_cases ht : text = []
  · rw [if_pos ht]
    rfl
  · rw [if_neg ht]
    have h := dpWindows_isSome text cs ov hov (text.length + 1) 0 (by omega)
    obtain ⟨ws, hws⟩ := Option.isSome_iff_exists.mp h
    rw [hws]
    rfl

theorem C2_amended_witness :
    (dpWindows ("ab").data 1000 200 3 0).isSome
    ∧ (split_text_into_chunks ("ab").data 1000 200).isSome :=
  ⟨(C2_amended ("ab").data 1000 200 (by omega)).1 3 0 (by decide),
   (C2_amended ("ab").data 1000 200 (by omega)).2⟩

/-! ## Claim C3 -/

/-- C3: the claim is false as stated.  In `document_processor.py` the
terminator set is `.`, `!`, `?` only: on `aaaa\naaaaaaaa` with
`chunk_size=10` the newline at index 4 is inside the scan window, the
adjustment the spec prescribes would cut at 5, but the code keeps the original
boundary 10.  In `document_processor_lite.py` the scan window is 100
(not `min(200, chunk_size)`) and the terminator literal makes backslash
and the letter n terminators: on `aaaanaaaaaaaa` the code cuts at the
letter n (end 5) where the adjustment the spec prescribes keeps
boundary 10. -/
theorem C3_counterexample :
    ("aaaa\naaaaaaaa").data.getD 4 ' ' = '\n'
    ∧ adjustEnd 200 dpTerms ("aaaa\naaaaaaaa").data 10 0 = 10
    ∧ spec_adjust_end ("aaaa\naaaaaaaa").data 10 0 = 5
    ∧ adjustEnd 100 liteTerms ("aaaanaaaaaaaa").data 10 0 = 5
    ∧ spec_adjust_end ("aaaanaaaaaaaa").data 10 0 = 10 := by
  refine ⟨by decide, by decide, by decide, by decide, by decide⟩

/-- C3 (amended): when a window boundary falls inside the text,
`document_processor.py` scans backward over the positions strictly
between `max(start + chunk_size - 200, start)` and
`start + chunk_size` — that is, over `min(200, chunk_size)` positions —
for a terminator in exactly `{., !, ?}` (newline is not a terminator),
cutting just after the topmost such terminator, and cutting at the
original boundary if none is present; `document_processor_lite.py` does
the same with scan window 100 and terminator set
`{., !, ?, backslash, n}` (backslash and n being the two characters
of the backslash-n literal in the source). -/
theorem C3_amended :
    (∀ (text : List Char) (cs start : Nat), start + cs < text.length →
      ((∀ j, j ≤ start + cs → max (start + cs - 200) start < j →
          dpTerms.contains (text.getD j ' ') = false) →
        adjustEnd 200 dpTerms text cs start = start + cs)
      ∧ ∀ j, j ≤ start + cs → max (start + cs - 200) start < j →
          dpTerms.contains (text.getD j ' ') = true →
          (∀ i, i ≤ start + cs → j < i →
            dpTerms.contains (text.getD i ' ') = false) →
          adjustEnd 200 dpTerms text cs start = j + 1)
    ∧ (∀ (text : List Char) (cs start : Nat), start + cs < text.length →
      ((∀ j, j ≤ start + cs → max (start + cs - 100) start < j →
          liteTerms.contains (text.getD j ' ') = false) →
        adjustEnd 100 liteTerms text cs start = start + cs)
      ∧ ∀ j, j ≤ start + cs → max (start + cs - 100) start < j →
          liteTerms.contains (text.getD j ' ') = true →
          (∀ i, i ≤ start + cs → j < i →
            liteTerms.contains (text.getD i ' ') = false) →
          adjustEnd 100 liteTerms text cs start = j + 1)
    ∧ dpTerms = ['.', '!', '?']
    ∧ liteTerms = ['.', '!', '?', '\\', 'n']
    ∧ ∀ (start cs window : Nat),
        (start + cs) - max (start + cs - window) start = min window cs := by
  refine ⟨?_, ?_, rfl, rfl, ?_⟩
  · intro text cs start hlen
    exact ⟨fun h => adjustEnd_of_no_term 200 dpTerms text cs start hlen h,
      fun j hj1 hj2 hc htop =>
        adjustEnd_of_term 200 dpTerms text cs start j hlen hj1 hj2 hc htop⟩
  · intro text cs start hlen
    exact ⟨fun h => adjustEnd_of_no_term 100 liteTerms text cs start hlen h,
      fun j hj1 hj2 hc htop =>
        adjustEnd_of_term 100 liteTerms text cs start j hlen hj1 hj2 hc htop⟩
  · intro start cs window
    have h1 : start + cs - window ≤ max (start + cs - window) start := le_max_left _ _
    have h2 : start ≤ max (start + cs - window) start := le_max_right _ _
    have h3 : max (start + cs - window) start = start + cs - window
        ∨ max (start + cs - window) start = start := max_choice _ _
    rcases h3 with h3 | h3 <;> rw [h3] <;> omega

theorem C3_amended_witness :
    adjustEnd 200 dpTerms ("aaaa.aaaaaaa").data 10 0 = 5
    ∧ adjustEnd 100 liteTerms ("aaaabaaaaaaaa").data 10 0 = 10 := by
  constructor
  · exact (C3_amended.1 ("aaaa.aaaaaaa").data 10 0 (by decide)).2 4 (by decide)
      (by decide) (by decide) (by decide)
  · exact (C3_amended.2.1 ("aaaabaaaaaaaa").data 10 0 (by decide)).1 (by decide)

/-! ## Claim C4 -/

/-- C4: the claim is false as stated.  `search_knowledge_base` catches
every exception and returns `[]`, so a query against the never-created
collection `documents` yields the very same empty list as a query
against an existing collection with no matches — the caller cannot
distinguish them at this interface, even though `get_collection` did
raise internally. -/
theorem C4_counterexample :
    search_knowledge_base chroma_query [] "q" "documents" 5
        = search_knowledge_base chroma_query [("documents", [])] "q" "documents" 5
    ∧ search_knowledge_base chroma_query [] "q" "documents" 5 = []
    ∧ get_collection ([] : KBStore) "documents"
        = Except.error "Collection documents does not exist." := by
  refine ⟨rfl, rfl, rfl⟩

/-- C4 (amended): a query against a never-created collection raises
`NotFoundError` inside `search_knowledge_base`, but the catch-all in
the method converts it to the empty result list, the same value an
existing collection with no matches yields — callers of
`search_knowledge_base` cannot distinguish the two cases. -/
theorem C4_amended (store : KBStore)
    (queryFn : List String → String → Nat → List (String × Rat))
    (query name : String) (n : Nat) :
    (alistGet store name = none →
      get_collection store name
          = Except.error ("Collection " ++ name ++ " does not exist.")
        ∧ search_knowledge_base queryFn store query name n = [])
    ∧ (alistGet store name = some [] →
        search_knowledge_base chroma_query store query name n = []) := by
  constructor
  · intro h
    have hg : get_collection store name
        = Except.error ("Collection " ++ name ++ " does not exist.") := by
      rw [get_collection, h]
    exact ⟨hg, by rw [search_knowledge_base, hg]⟩
  · intro h
    rw [search_knowledge_base, get_collection, h]
    simp [chroma_query]

theorem C4_amended_witness :
    (get_collection ([] : KBStore) "ghost"
        = Except.error "Collection ghost does not exist."
      ∧ search_knowledge_base chroma_query [] "q" "ghost" 5 = [])
    ∧ search_knowledge_base chroma_query [("kb", [])] "q" "kb" 5 = [] :=
  ⟨(C4_amended [] chroma_query "q" "ghost" 5).1 rfl,
   (C4_amended [("kb", [])] chroma_query "q" "kb" 5).2 rfl⟩

/-! ## Claim C5 -/

lemma embedCalls_ok (svc : EmbedService) :
    ∀ (texts : List (List Char)) (es : List Vec),
      embedCalls svc texts = Except.ok es →
      es.length = texts.length
      ∧ ∀ i, i < texts.length →
          es[i]? = (svc ((texts.getD i []).take 8000)).toOption := by
  intro texts
  induction texts with
  | nil =>
    intro es h
    simp only [embedCalls, Except.ok.injEq] at h
    subst h
    exact ⟨rfl, fun i hi => absurd hi (by simp)⟩
  | cons t ts ih =>
    intro es h
    simp only [embedCalls] at h
    cases hsvc : svc (t.take 8000) with
    | error e => rw [hsvc] at h; exact absurd h (by simp)
    | ok v =>
      rw [hsvc] at h
      cases hrec : embedCalls svc ts with
      | error e => rw [hrec] at h; exact absurd h (by simp)
      | ok vs =>
        rw [hrec] at h
        have hes : v :: vs = es := by
          have := h
          simpa using this
        subst hes
        obtain ⟨hl, hg⟩ := ih vs hrec
        refine ⟨by simp [hl], ?_⟩
        intro i hi
        cases i with
        | zero => simp [hsvc, Except.toOption]
        | succ m =>
          rw [List.getElem?_cons_succ]
          exact hg m (by simpa using hi)

/-- C5: confirmed.  With a client present, the gateway returns exactly
one vector per input text: when every call succeeds the i-th output is
the embedding the service returns for the i-th input truncated to 8000 characters
(order preserving); when any call raises, the gateway does not raise
but returns the 1536-dimensional zero vector for every text. -/
theorem C5_embed_gateway (svc : EmbedService) (texts : List (List Char)) :
    zeroVec.length = 1536
    ∧ (get_embeddings (some svc) texts).length = texts.length
    ∧ (∀ es, embedCalls svc texts = Except.ok es →
        get_embeddings (some svc) texts = es
        ∧ ∀ i, i < texts.length →
            es[i]? = (svc ((texts.getD i []).take 8000)).toOption)
    ∧ (∀ e, embedCalls svc texts = Except.error e →
        get_embeddings (some svc) texts = texts.map fun _ => zeroVec) := by
  refine ⟨by rw [zeroVec, List.length_replicate], ?_, ?_, ?_⟩
  · rw [get_embeddings]
    cases h : embedCalls svc texts with
    | ok es => exact (embedCalls_ok svc texts es h).1
    | error e => simp
  · intro es h
    rw [get_embeddings, h]
    exact ⟨rfl, (embedCalls_ok svc texts es h).2⟩
  · intro e h
    rw [get_embeddings, h]

theorem C5_embed_gateway_witness :
    get_embeddings (some (fun _ => Except.error "service down")) [['a'], ['b']]
      = [zeroVec, zeroVec] := by
  have h := (C5_embed_gateway (fun _ => Except.error "service down")
    [['a'], ['b']]).2.2.2 "service down" rfl
  simpa using h

/-! ## Claim C6 -/

/-- C6: confirmed.  `get_context_for_llm` on a session returns at most
one system-role summary entry followed by the last 10 messages of the
session in stored (chronological) order; concretely, after creating a
session and adding the user message `What is X?` and the assistant
message `X is Y.`, calling it with `include_summary=False` returns
exactly those two messages in that order. -/
theorem C6_context_policy :
    (∀ (s : Session) (include_summary : Bool),
      ∃ pre,
        get_context_for_session s include_summary
            = pre ++ (s.messages.drop (s.messages.length - 10)).map
                (fun m => (m.role, m.content))
          ∧ pre.length ≤ 1 ∧ ∀ p ∈ pre, p.1 = "system")
    ∧ ((add_message (create_session { cache := [], disk := [] }
          "sid" "t0" "generation" "documents") "sid" "user" "What is X?" "t1").1
        = true)
    ∧ ((add_message (add_message (create_session { cache := [], disk := [] }
            "sid" "t0" "generation" "documents")
          "sid" "user" "What is X?" "t1").2 "sid" "assistant" "X is Y." "t2").1
        = true)
    ∧ ((get_context_for_llm
          (add_message (add_message (create_session { cache := [], disk := [] }
              "sid" "t0" "generation" "documents")
            "sid" "user" "What is X?" "t1").2 "sid" "assistant" "X is Y." "t2").2
          "sid" false).1
        = [("user", "What is X?"), ("assistant", "X is Y.")]) := by
  refine ⟨?_, by decide, by decide, by decide⟩
  intro s include_summary
  rw [get_context_for_session]
  by_cases h : include_summary ∧ s.context_summary ≠ ""
  · refine ⟨[("system", "Previous conversation summary: " ++ s.context_summary)],
      by rw [if_pos h], by simp, ?_⟩
    intro p hp
    rw [List.mem_singleton] at hp
    rw [hp]
  · exact ⟨[], by rw [if_neg h], by simp, fun p hp => absurd hp (by simp)⟩

theorem C6_context_policy_witness :
    (get_context_for_llm
        (add_message (add_message (create_session { cache := [], disk := [] }
            "sid" "t0" "generation" "documents")
          "sid" "user" "What is X?" "t1").2 "sid" "assistant" "X is Y." "t2").2
        "sid" false).1
      = [("user", "What is X?"), ("assistant", "X is Y.")] :=
  C6_context_policy.2.2.2

/-! ## Claim C7 -/

lemma alistPut_self {α : Type} (k : String) (v w : α) :
    alistPut [(k, v)] k w = [(k, w)] := by
  rw [alistPut, if_pos rfl]

/-- C7: the claim is false as stated.  Summarization is not triggered
"after every 10th message": adding the 10th message to a session with 9
messages leaves `context_summary` empty (the guard is
`len(messages) > 10`, and `_update_context_summary` itself returns
early at `len <= 10`), while adding the 11th message — not a 10th —
does set the summary. -/
theorem C7_counterexample :
    (sessionWith 9).messages.length = 9
    ∧ ((alistGet (add_message
        { cache := [("sid", sessionWith 9)], disk := [("sid", sessionWith 9)] }
        "sid" "user" "hi" "t2").2.cache "sid").map Session.context_summary
      = some "")
    ∧ ((alistGet (add_message
        { cache := [("sid", sessionWith 10)], disk := [("sid", sessionWith 10)] }
        "sid" "user" "hi" "t2").2.cache "sid").map Session.context_summary
      = some "Conversation with 11 messages") := by
  refine ⟨by decide, by decide, by decide⟩

/-- C7 (amended): `add_message` triggers the summarization side-effect
on every call that leaves the session with more than 10 messages (the
11th and every later message), not on every 10th; the side-effect
changes only `context_summary` — the message sequence and every other
field (besides `last_updated`, set by `add_message` itself) are
unchanged, and the updated session is stored in both cache and disk. -/
theorem C7_amended (s : Session) (role content now : String) :
    (add_message { cache := [(s.session_id, s)], disk := [(s.session_id, s)] }
        s.session_id role content now).1 = true
    ∧ ∃ s9,
        (add_message { cache := [(s.session_id, s)], disk := [(s.session_id, s)] }
            s.session_id role content now).2
          = { cache := [(s.session_id, s9)], disk := [(s.session_id, s9)] }
        ∧ s9.messages
            = s.messages ++ [{ role := role, content := content, timestamp := now }]
        ∧ s9.last_updated = now
        ∧ s9.session_id = s.session_id
        ∧ s9.created_at = s.created_at
        ∧ s9.reasoning_strategy = s.reasoning_strategy
        ∧ s9.knowledge_base = s.knowledge_base
        ∧ (s.messages.length + 1 ≤ 10 → s9.context_summary = s.context_summary)
        ∧ (10 < s.messages.length + 1 →
            s9.context_summary
              = summary_text
                  (s.messages ++ [{ role := role, content := content, timestamp := now }])) := by
  have hget : get_session
      { cache := [(s.session_id, s)], disk := [(s.session_id, s)] } s.session_id
      = (some s, { cache := [(s.session_id, s)], disk := [(s.session_id, s)] }) := by
    rw [get_session, show alistGet [(s.session_id, s)] s.session_id = some s from by
      rw [alistGet, if_pos rfl]]
  by_cases h10 : 10 < s.messages.length + 1
  · refine ⟨by rw [add_message, hget], Exists.intro ({ s with
        messages := s.messages ++ [{ role := role, content := content, timestamp := now }],
        last_updated := now,
        context_summary := summary_text
          (s.messages ++ [{ role := role, content := content, timestamp := now }]) } : Session)
      ⟨?_, rfl, rfl, rfl, rfl, rfl, rfl, fun hc => absurd hc (by omega), fun _ => rfl⟩⟩
    rw [add_message, hget]
    simp only [List.length_append, List.length_cons, List.length_nil]
    rw [if_pos h10, update_context_summary]
    have h10b : ¬ (s.messages.length + 1 ≤ 10) := by omega
    simp [save_session, alistPut, h10b, List.length_append]
  · refine ⟨by rw [add_message, hget], Exists.intro ({ s with
        messages := s.messages ++ [{ role := role, content := content, timestamp := now }],
        last_updated := now } : Session)
      ⟨?_, rfl, rfl, rfl, rfl, rfl, rfl, fun _ => rfl, fun hc => absurd hc (by omega)⟩⟩
    rw [add_message, hget]
    simp only [List.length_append, List.length_cons, List.length_nil]
    rw [if_neg h10]
    simp [save_session, alistPut]

theorem C7_amended_witness :
    (add_message { cache := [("sid", sessionWith 0)], disk := [("sid", sessionWith 0)] }
        "sid" "user" "hi" "t1").1 = true :=
  (C7_amended (sessionWith 0) "user" "hi" "t1").1

/-! ## Claim C8 -/

/-- C8: confirmed.  In each of the three strategies, an exception from
the completion service is caught inside `process_question` and turned
into a result with `success = false` and an answer naming the error;
the embedding is a total function, so no exception reaches the caller. -/
theorem C8_strategy_error_capture
    (processInput : String → List String → List ChatMsg)
    (parseOutput : String → Option String × Option String)
    (llm : LlmClient) (question : String) (context : List String)
    (history : List ChatMsg) (e : String) :
    (llm (generation_messages processInput question context history)
        = Except.error e →
      generation_process_question processInput parseOutput llm question context history
        = { success := false, strategy := "generation",
            answer := "Error in generation strategy: " ++ e,
            rationale := "", error_msg := some e, raw_response := none,
            reasoning_steps := [] })
    ∧ (llm (self_ask_messages question context history) = Except.error e →
      self_ask_process_question llm question context history
        = { success := false, strategy := "self_ask",
            answer := "Error in self-ask strategy: " ++ e,
            rationale := "", error_msg := some e, raw_response := none,
            reasoning_steps := [] })
    ∧ (llm (atomic_messages question context history) = Except.error e →
      atomic_process_question llm question context history
        = { success := false, strategy := "atomic_decomposition",
            answer := "Error in atomic decomposition strategy: " ++ e,
            rationale := "", error_msg := some e, raw_response := none,
            reasoning_steps := [] }) := by
  refine ⟨?_, ?_, ?_⟩
  · intro h
    rw [generation_process_question, h]
  · intro h
    rw [self_ask_process_question, h]
  · intro h
    rw [atomic_process_question, h]

theorem C8_strategy_error_capture_witness :
    generation_process_question (fun q _ => [("user", q)])
        (fun r => (some r, none)) (fun _ => Except.error "boom") "q" [] []
      = { success := false, strategy := "generation",
          answer := "Error in generation strategy: boom",
          rationale := "", error_msg := some "boom", raw_response := none,
          reasoning_steps := [] } :=
  (C8_strategy_error_capture (fun q _ => [("user", q)]) (fun r => (some r, none))
    (fun _ => Except.error "boom") "q" [] [] "boom").1 rfl

/-! ## Claim C9 -/

/-- C9: confirmed.  Dispatching an unregistered strategy name returns
the failure dictionary with `success = false` and
`available_strategies` exactly the three registered names, and the
result does not depend on the completion service — no completion call
is made. -/
theorem C9_unknown_strategy
    (processInput : String → List String → List ChatMsg)
    (parseOutput : String → Option String × Option String)
    (llm llm2 : LlmClient) (strategy_name question : String)
    (context : List String) (history : List ChatMsg)
    (h : strategy_name ∉ strategy_names) :
    process_with_strategy processInput parseOutput llm strategy_name question
        context history
      = DispatchResult.unknown ("Unknown reasoning strategy: " ++ strategy_name)
          strategy_names
    ∧ (process_with_strategy processInput parseOutput llm strategy_name question
        context history).success = false
    ∧ (process_with_strategy processInput parseOutput llm strategy_name question
        context history).available
      = some ["generation", "self_ask", "atomic_decomposition"]
    ∧ process_with_strategy processInput parseOutput llm strategy_name question
        context history
      = process_with_strategy processInput parseOutput llm2 strategy_name question
          context history := by
  have h1 : ¬ strategy_name = "generation" := fun hc => h (by rw [hc]; decide)
  have h2 : ¬ strategy_name = "self_ask" := fun hc => h (by rw [hc]; decide)
  have h3 : ¬ strategy_name = "atomic_decomposition" := fun hc => h (by rw [hc]; decide)
  have hu : ∀ llm9 : LlmClient,
      process_with_strategy processInput parseOutput llm9 strategy_name question
          context history
        = DispatchResult.unknown ("Unknown reasoning strategy: " ++ strategy_name)
            strategy_names := by
    intro llm9
    rw [process_with_strategy, if_neg h1, if_neg h2, if_neg h3]
  refine ⟨hu llm, ?_, ?_, by rw [hu llm, hu llm2]⟩
  · rw [hu llm]
    rfl
  · rw [hu llm]
    rfl

theorem C9_unknown_strategy_witness :
    process_with_strategy (fun q _ => [("user", q)]) (fun r => (some r, none))
        (fun _ => Except.error "x") "nonexistent" "q" [] []
      = DispatchResult.unknown "Unknown reasoning strategy: nonexistent"
          strategy_names :=
  (C9_unknown_strategy (fun q _ => [("user", q)]) (fun r => (some r, none))
    (fun _ => Except.error "x") (fun _ => Except.ok "y") "nonexistent" "q" [] []
    (by decide)).1

/-! ## Claim C10 -/

/-- C10: confirmed.  When the session id is in neither the in-memory
cache nor durable storage, `add_message` returns `False` and the whole
manager state is unchanged: nothing is cached, appended, or written. -/
theorem C10_missing_session (st : MState) (sid role content now : String)
    (hc : alistGet st.cache sid = none) (hd : alistGet st.disk sid = none) :
    add_message st sid role content now = (false, st) := by
  rw [add_message, get_session, hc, hd]

theorem C10_missing_session_witness :
    add_message { cache := [], disk := [] } "ghost" "user" "hi" "t"
      = (false, { cache := [], disk := [] }) :=
  C10_missing_session { cache := [], disk := [] } "ghost" "user" "hi" "t" rfl rfl

end PikeRag
